import Mathlib

/-! # docker-machine-certs: a verification development of `main.go`

The program provisions a CA / client certificate pair, a per-machine server
certificate and a docker-machine host descriptor (`config.json`).

The Go program is embedded shallowly:

* the command-line flags (process-wide pointers in the source) are a `Config`
  record passed explicitly;
* the lexical path functions of Go's `path/filepath` package (Unix flavour)
  are embedded as executable functions on character lists;
* the operating system and the `libmachine` packages are an `Env` record of
  operations over an arbitrary filesystem type; every function of the program
  that performs effects threads a `Proc`: the filesystem and the trace of
  the external calls and printed lines so far.
-/

namespace DockerMachineCerts

/-! ## `path/filepath` (Unix): `Clean` and `Join` -/

namespace filepath

/-- The path separator of the Unix flavour of `path/filepath`. -/
def Separator : Char := '/'

/-- The elements of a path: the (possibly empty) runs of characters between
separators, left to right. -/
def splitSep : List Char → List (List Char)
  | [] => [[]]
  | c :: cs =>
    if c = Separator then [] :: splitSep cs
    else
      match splitSep cs with
      | [] => [[c]]
      | e :: es => (c :: e) :: es

/-- Elements written one after the other with a separator in between
(`strings.Join(elem, "/")`). -/
def joinSep : List (List Char) → List Char
  | [] => []
  | [e] => e
  | e :: es => e ++ Separator :: joinSep es

/-- The output buffer of `Clean`, element-wise: `ups` counts the leading `..`
elements that cannot be cancelled (the part of the buffer below the index
`dotdot` of the source, for a path that is not rooted), `elems` holds the real
elements written after them, the most recent first. -/
structure Buf where
  ups : Nat
  elems : List (List Char)
deriving DecidableEq, Repr

/-- One turn of the loop of `Clean`, for the element `e` that starts at the
read index: an empty element and `.` are skipped; `..` removes the last real
element when there is one, is dropped at the root of a rooted path, and is
appended otherwise; any other element is appended. -/
def cleanStep (rooted : Bool) (b : Buf) (e : List Char) : Buf :=
  if e = [] then b
  else if e = ['.'] then b
  else if e = ['.', '.'] then
    match b.elems with
    | _ :: rest => { b with elems := rest }
    | [] => if rooted then b else { b with ups := b.ups + 1 }
  else { b with elems := e :: b.elems }

/-- The elements held by the buffer, in the order they are written. -/
def Buf.comps (b : Buf) : List (List Char) :=
  List.replicate b.ups ['.', '.'] ++ b.elems.reverse

/-- The text of the buffer when the loop ends: a rooted path starts with the
separator; an empty result of a path that is not rooted becomes `.`. -/
def render (rooted : Bool) (b : Buf) : List Char :=
  if rooted then Separator :: joinSep b.comps
  else if b.comps = [] then ['.'] else joinSep b.comps

/-- Is the path rooted (does it start with the separator)? -/
def isRooted : List Char → Bool
  | c :: _ => c = Separator
  | [] => false

/-- A real path element: not empty, not `.`, not `..`, and without a
separator. -/
@[reducible] def IsElement (e : List Char) : Prop :=
  e ≠ [] ∧ e ≠ ['.'] ∧ e ≠ ['.', '.'] ∧ Separator ∉ e

/-- A buffer of `Clean` is well formed when it holds real elements only and,
for a rooted path, no leading `..`. -/
def Buf.WF (rooted : Bool) (b : Buf) : Prop :=
  (∀ e ∈ b.elems, IsElement e) ∧ (rooted = true → b.ups = 0)

/-- The buffer of `Clean` when the loop over the path ends. -/
def cleanBuf (path : List Char) : Buf :=
  (splitSep path).foldl (cleanStep (isRooted path)) ⟨0, []⟩

/-- Embedding of `filepath.Clean` on the characters of the path. -/
def cleanChars (path : List Char) : List Char :=
  if path = [] then ['.']
  else render (isRooted path) ((splitSep path).foldl (cleanStep (isRooted path)) ⟨0, []⟩)

/-- Embedding of `filepath.Join` on character lists: the leading empty
elements are ignored, the rest is joined with separators and cleaned; the
result is empty when every element is empty. -/
def joinChars (elem : List (List Char)) : List Char :=
  match elem.dropWhile (fun e => decide (e = [])) with
  | [] => []
  | es => cleanChars (joinSep es)

/-- Go's `filepath.Clean`. -/
def Clean (path : String) : String := ⟨cleanChars path.data⟩

/-- Go's `filepath.Join`. -/
def Join (elem : List String) : String := ⟨joinChars (elem.map String.data)⟩

/-- Go's `filepath.IsAbs` (Unix): the path starts with the separator. -/
def IsAbs (path : String) : Bool := isRooted path.data

end filepath

/-! ## Flags, errors and the external collaborators -/

/-- The command-line flags (`outDir`, `serverIP`, ... of the source, which
are process-wide pointers set by `flag.Parse`). -/
structure Config where
  outDir : String
  serverIP : String
  serverDNS : String
  machineName : String
  sshKeyPath : String
  sshUser : String
  sshPort : Int
deriving DecidableEq, Repr

/-- The values of the flags when the command line sets none of them. -/
def flagDefaults : Config :=
  { outDir := "out", serverIP := "", serverDNS := "", machineName := "",
    sshKeyPath := "", sshUser := "root", sshPort := 22 }

/-- A non-nil Go `error`: either one for which `os.IsNotExist` answers true,
or any other one; `msg` is the text of `Error()`. -/
inductive GoError where
  | notExist (msg : String)
  | other (msg : String)
deriving DecidableEq, Repr

/-- The text of `err.Error()`. -/
def GoError.Error : GoError → String
  | .notExist m => m
  | .other m => m

namespace os

/-- Go's `os.IsNotExist`, on a possibly nil error. -/
def IsNotExist : Option GoError → Bool
  | some (.notExist _) => true
  | _ => false

end os

/-- The fields of `auth.Options` that the program sets; the Go zero value
of the others is the empty string. -/
structure AuthOptions where
  CertDir : String := ""
  CaCertPath : String := ""
  CaPrivateKeyPath : String := ""
  ClientCertPath : String := ""
  ClientKeyPath : String := ""
  ServerCertPath : String := ""
  ServerKeyPath : String := ""
  StorePath : String := ""
deriving DecidableEq, Repr

/-- The fields of `drivers.BaseDriver` that the program sets. -/
structure BaseDriver where
  MachineName : String
  StorePath : String
  IPAddress : String
  SSHUser : String
  SSHKeyPath : String
  SSHPort : Int
deriving DecidableEq, Repr

/-- The record `generic.Driver`. -/
structure Driver where
  EnginePort : Int
  SSHKey : String
  base : BaseDriver
deriving DecidableEq, Repr

/-- The method `GetMachineName` of `drivers.BaseDriver`, an accessor of the
field `MachineName`. -/
def Driver.GetMachineName (d : Driver) : String := d.base.MachineName

/-- The record `engine.Options`, fields set by the program. -/
structure EngineOptions where
  InstallURL : String
  TLSVerify : Bool
deriving DecidableEq, Repr

/-- The record `swarm.Options`, fields set by the program. -/
structure SwarmOptions where
  Host : String
  Image : String
  Strategy : String
deriving DecidableEq, Repr

/-- The record `host.Options`. -/
structure HostOptions where
  AuthOptions : AuthOptions
  EngineOptions : EngineOptions
  SwarmOptions : SwarmOptions
deriving DecidableEq, Repr

/-- The record `host.Host`, the host descriptor. -/
structure Host where
  ConfigVersion : Int
  Name : String
  Driver : Driver
  DriverName : String
  HostOptions : HostOptions
deriving DecidableEq, Repr

/-- Constants that the program takes from `libmachine`:
`version.ConfigVersion`, `engine.DefaultPort`,
`drivers.DefaultEngineInstallURL` and the result of the method `DriverName`
of the generic driver. -/
structure LibConsts where
  ConfigVersion : Int
  DefaultPort : Int
  DefaultEngineInstallURL : String
  DriverName : String
deriving DecidableEq, Repr

/-- What the program does to the outside world, in the order it does it:
the calls to the operating system and to `libmachine`, the lines printed on
standard output, and the message of `log.Fatal`. -/
inductive Event where
  | stat (path : String)
  | mkdirAll (path : String)
  | openFile (path : String)
  | create (path : String)
  | copy (dst src : String)
  | close (path : String)
  | bootstrapCertificates (opts : AuthOptions)
  | generateCert (hosts : List String)
      (certFile keyFile caFile caKeyFile org : String) (bits : Nat)
  | save (storePath : String) (host : Host)
  | print (text : String)
  | fatal (text : String)
deriving DecidableEq, Repr

/-- The operating system and the `libmachine` packages, over a filesystem
type `FS`. `Stat` and `Open` (opening for reading) only observe the
filesystem; the others may change it and answer with the error they return
(`none` is `nil`). `Getwd` is `none` when `os.Getwd` fails. -/
structure Env (FS : Type) where
  lib : LibConsts
  Getwd : Option String
  Stat : FS → String → Option GoError
  Open : FS → String → Option GoError
  MkdirAll : String → FS → Option GoError × FS
  Create : String → FS → Option GoError × FS
  Copy : String → String → FS → Option GoError × FS
  Close : String → FS → Option GoError × FS
  BootstrapCertificates : AuthOptions → FS → Option GoError × FS
  GenerateCert : List String → String → String → String → String → String →
    Nat → FS → Option GoError × FS
  Save : String → Host → FS → Option GoError × FS

/-- The state a run goes through: the filesystem and the events so far. -/
structure Proc (FS : Type) where
  fs : FS
  trace : List Event

/-- Record an event. -/
def Proc.log {FS : Type} (st : Proc FS) (e : Event) : Proc FS :=
  { st with trace := st.trace ++ [e] }

/-- Perform an external call that may change the filesystem and record it. -/
def Proc.call {FS : Type} (st : Proc FS) (e : Event)
    (op : FS → Option GoError × FS) : Option GoError × Proc FS :=
  ((op st.fs).1, { fs := (op st.fs).2, trace := st.trace ++ [e] })

/-! ## The program -/

/-- The function `checkFlags`: `none` when it returns, `some msg` when it
stops the process through `log.Fatal msg` (exit status 1). -/
def checkFlags (cfg : Config) : Option String :=
  if cfg.serverIP = "" then some "--server-ip must be set"
  else if cfg.machineName = "" then some "--machine-name must be set"
  else if cfg.sshKeyPath = "" then some "--ssh-key-path must be set"
  else none

def certsPath (cfg : Config) : String :=
  filepath.Join [cfg.outDir, "certs"]

def certsFile (cfg : Config) (name : String) : String :=
  filepath.Join [certsPath cfg, name]

def machinePath (cfg : Config) : String :=
  filepath.Join [cfg.outDir, "machines", cfg.machineName]

def machineFile (cfg : Config) (name : String) : String :=
  filepath.Join [machinePath cfg, name]

/-- A name that is one real path element: not empty, not `.`, not `..`, and
without a separator. -/
@[reducible] def isPathElement (s : String) : Prop := filepath.IsElement s.data

/-- The function `copyFile`; the deferred `s.Close()` of the file opened for
reading has no effect on the result and is not recorded. -/
def copyFile {FS : Type} (env : Env FS) (src dst : String) (st : Proc FS) :
    Option GoError × Proc FS :=
  match env.Open st.fs src with
  | some err => (some err, st.log (.openFile src))
  | none =>
    match (st.log (.openFile src)).call (.create dst) (env.Create dst) with
    | (some err, st1) => (some err, st1)
    | (none, st1) =>
      match st1.call (.copy dst src) (env.Copy dst src) with
      | (some err, st2) => (some err, (st2.call (.close dst) (env.Close dst)).2)
      | (none, st2) => st2.call (.close dst) (env.Close dst)

/-- The function `createDir`: the result of `os.MkdirAll` is discarded. -/
def createDir {FS : Type} (env : Env FS) (path : String) (st : Proc FS) : Proc FS :=
  if os.IsNotExist (env.Stat st.fs path) then
    ((st.log (.stat path)).call (.mkdirAll path) (env.MkdirAll path)).2
  else st.log (.stat path)

/-- Go's `filepath.Abs` (Unix); `none` when `os.Getwd` fails. -/
def filepath.Abs (getwd : Option String) (path : String) : Option String :=
  if filepath.IsAbs path then some (filepath.Clean path)
  else
    match getwd with
    | none => none
    | some wd => some (filepath.Join [wd, path])

/-- The function `setAbsolutePaths`: the error of `filepath.Abs` is dropped,
the path returned with it is the empty string. -/
def setAbsolutePaths {FS : Type} (env : Env FS) (cfg : Config) : Config :=
  { cfg with
    outDir := (filepath.Abs env.Getwd cfg.outDir).getD ""
    sshKeyPath := (filepath.Abs env.Getwd cfg.sshKeyPath).getD "" }

/-- The options built at the start of the generation branch of
`BootstrapClientCert`. -/
def bootstrapOpts (cfg : Config) : AuthOptions :=
  { CertDir := certsPath cfg
    CaCertPath := certsFile cfg "ca.pem"
    CaPrivateKeyPath := certsFile cfg "ca-key.pem"
    ClientCertPath := certsFile cfg "cert.pem"
    ClientKeyPath := certsFile cfg "key.pem" }

def BootstrapClientCert {FS : Type} (env : Env FS) (cfg : Config) (st : Proc FS) :
    Option GoError × Proc FS :=
  if !os.IsNotExist (env.Stat st.fs (certsFile cfg "ca.pem")) then
    (none, (st.log (.stat (certsFile cfg "ca.pem"))).log
      (.print "Client certs found, skipping client cert creation\n"))
  else
    match (st.log (.stat (certsFile cfg "ca.pem"))).call
        (.bootstrapCertificates (bootstrapOpts cfg))
        (env.BootstrapCertificates (bootstrapOpts cfg)) with
    | (some err, st1) => (some err, st1)
    | (none, st1) => (none, st1.log (.print "Client cert files sucessfully created\n"))

def CreateServerCert {FS : Type} (env : Env FS) (cfg : Config) (ip dns : String)
    (st : Proc FS) : Option GoError × Proc FS :=
  st.call
    (.generateCert [ip, dns] (machineFile cfg "server.pem")
      (machineFile cfg "server-key.pem") (machineFile cfg "ca.pem")
      (certsFile cfg "ca-key.pem") cfg.serverDNS 2048)
    (env.GenerateCert [ip, dns] (machineFile cfg "server.pem")
      (machineFile cfg "server-key.pem") (machineFile cfg "ca.pem")
      (certsFile cfg "ca-key.pem") cfg.serverDNS 2048)

/-- The value `driver` built by `CreateConfigJSON`. -/
def configDriver (lib : LibConsts) (cfg : Config) : Driver :=
  { EnginePort := lib.DefaultPort
    SSHKey := machineFile cfg "id_rsa"
    base :=
      { MachineName := cfg.machineName
        StorePath := machinePath cfg
        IPAddress := cfg.serverIP
        SSHUser := cfg.sshUser
        SSHKeyPath := cfg.sshKeyPath
        SSHPort := cfg.sshPort } }

/-- The value `host` built by `CreateConfigJSON`. -/
def configHost (lib : LibConsts) (cfg : Config) : Host :=
  { ConfigVersion := lib.ConfigVersion
    Name := (configDriver lib cfg).GetMachineName
    Driver := configDriver lib cfg
    DriverName := lib.DriverName
    HostOptions :=
      { AuthOptions :=
          { CertDir := certsPath cfg
            CaCertPath := certsFile cfg "ca.pem"
            CaPrivateKeyPath := certsFile cfg "ca-key.pem"
            ClientCertPath := certsFile cfg "cert.pem"
            ClientKeyPath := certsFile cfg "key.pem"
            ServerCertPath := machineFile cfg "server.pem"
            ServerKeyPath := machineFile cfg "server-key.pem"
            StorePath := machinePath cfg }
        EngineOptions :=
          { InstallURL := lib.DefaultEngineInstallURL
            TLSVerify := true }
        SwarmOptions :=
          { Host := "tcp://0.0.0.0:3376"
            Image := "swarm:latest"
            Strategy := "spread" } } }

/-- The function `CreateConfigJSON`: the descriptor is built and handed to
the file store rooted at `outDir`. -/
def CreateConfigJSON {FS : Type} (env : Env FS) (cfg : Config) (st : Proc FS) :
    Option GoError × Proc FS :=
  st.call (.save cfg.outDir (configHost env.lib cfg))
    (env.Save cfg.outDir (configHost env.lib cfg))

/-- The loop of `main` over the files copied from the certs directory to the
machine directory: it stops at the first copy that fails. -/
def copyCerts {FS : Type} (env : Env FS) (cfg : Config) :
    List String → Proc FS → Option GoError × Proc FS
  | [], st => (none, st)
  | file :: files, st =>
    match copyFile env (certsFile cfg file) (machineFile cfg file) st with
    | (some err, st1) => (some err, st1)
    | (none, st1) => copyCerts env cfg files st1

/-- The function `main`, from the parsed flags `flags`: the exit status of
the process and the final state. -/
def main {FS : Type} (env : Env FS) (flags : Config) (st : Proc FS) : Nat × Proc FS :=
  match checkFlags flags with
  | some msg => (1, st.log (.fatal msg))
  | none =>
    let cfg := setAbsolutePaths env flags
    match BootstrapClientCert env cfg st with
    | (some err, st1) => (1, st1.log (.print (err.Error ++ "\n")))
    | (none, st1) =>
      match copyCerts env cfg ["ca.pem", "cert.pem", "key.pem"]
          (createDir env (machinePath cfg) st1) with
      | (some err, st2) =>
        (1, st2.log (.print
          ("Fail to copy file from client to server path " ++ err.Error ++ "\n")))
      | (none, st2) =>
        match copyFile env cfg.sshKeyPath (machineFile cfg "id_rsa") st2 with
        | (some _, st3) => (1, st3.log (.print "Fail to copy ssh key\n"))
        | (none, st3) =>
          match CreateServerCert env cfg cfg.serverIP cfg.serverDNS st3 with
          | (some err, st4) => (1, st4.log (.print (err.Error ++ "\n")))
          | (none, st4) =>
            match CreateConfigJSON env cfg
                (st4.log (.print "Server cert files sucessfully created\n")) with
            | (some err, st5) => (1, st5.log (.print (err.Error ++ "\n")))
            | (none, st5) => (0, st5.log (.print "config.json sucessfully created\n"))

/-! ## Observations on a trace -/

/-- The SAN lists handed to the certificate issuer, one per call of
`cert.GenerateCert`, in order. -/
def sanLists : List Event → List (List String)
  | [] => []
  | .generateCert hosts _ _ _ _ _ _ :: es => hosts :: sanLists es
  | _ :: es => sanLists es

/-- The files the certificate issuer was asked to write: the certificate and
key paths of every call of `cert.GenerateCert`. -/
def issuerOutputs : List Event → List String
  | [] => []
  | .generateCert _ certFile keyFile _ _ _ _ :: es => certFile :: keyFile :: issuerOutputs es
  | _ :: es => issuerOutputs es

/-- Does the event hand control to certificate generation
(`cert.BootstrapCertificates`)? -/
def Event.isGeneration : Event → Bool
  | .bootstrapCertificates _ => true
  | _ => false

/-- Does the event belong to a step of `main` after the creation of the
machine directory (a copy, the server certificate, the descriptor)? -/
def Event.isLaterStep : Event → Bool
  | .openFile _ => true
  | .create _ => true
  | .copy _ _ => true
  | .close _ => true
  | .generateCert _ _ _ _ _ _ _ => true
  | .save _ _ => true
  | _ => false

/-! ## A small concrete world

A filesystem is the list of the paths present. It is used to evaluate the
program on concrete inputs. -/

/-- The constants of `libmachine` at the revision the program was written
for. -/
def demoLib : LibConsts :=
  { ConfigVersion := 3, DefaultPort := 2376,
    DefaultEngineInstallURL := "https://get.docker.com", DriverName := "generic" }

/-- An error of the kind `ENOENT` for the path. -/
def enoent (op path : String) : GoError :=
  .notExist (op ++ " " ++ path ++ ": no such file or directory")

/-- A world in which every operation succeeds: generation and issue add the
files they are asked to write. -/
def demoEnv : Env (List String) :=
  { lib := demoLib
    Getwd := some "/work"
    Stat := fun fs p => if p ∈ fs then none else some (enoent "stat" p)
    Open := fun fs p => if p ∈ fs then none else some (enoent "open" p)
    MkdirAll := fun p fs => (none, p :: fs)
    Create := fun p fs => (none, p :: fs)
    Copy := fun _ _ fs => (none, fs)
    Close := fun _ fs => (none, fs)
    BootstrapCertificates := fun o fs =>
      (none, o.CaCertPath :: o.CaPrivateKeyPath :: o.ClientCertPath :: o.ClientKeyPath :: fs)
    GenerateCert := fun _ certFile keyFile _ _ _ _ fs => (none, certFile :: keyFile :: fs)
    Save := fun root h fs => (none, filepath.Join [root, "machines", h.Name, "config.json"] :: fs) }

/-- The world of `demoEnv` on a filesystem mounted read-only: nothing can be
created or written. -/
def readOnlyEnv : Env (List String) :=
  { demoEnv with
    MkdirAll := fun p fs => (some (.other ("mkdir " ++ p ++ ": read-only file system")), fs)
    Create := fun p fs => (some (.other ("open " ++ p ++ ": read-only file system")), fs)
    BootstrapCertificates := fun o fs =>
      (some (.other ("open " ++ o.CaCertPath ++ ": read-only file system")), fs)
    GenerateCert := fun _ certFile _ _ _ _ _ fs =>
      (some (.other ("open " ++ certFile ++ ": read-only file system")), fs)
    Save := fun _ _ fs => (some (.other "read-only file system"), fs) }

/-- The world of `demoEnv` in which the certs directory cannot be searched:
`os.Stat` fails with a permission error on every path. -/
def deniedEnv : Env (List String) :=
  { demoEnv with
    Stat := fun _ p => some (.other ("stat " ++ p ++ ": permission denied")) }

/-- Flags of a typical run, after `setAbsolutePaths`. -/
def demoConfig : Config :=
  { outDir := "/out", serverIP := "203.0.113.9", serverDNS := "host.example.com",
    machineName := "node1", sshKeyPath := "/home/u/.ssh/id_rsa", sshUser := "root",
    sshPort := 22 }

/-- The files of a bootstrapped output root, and the SSH key. -/
def demoCerts : List String :=
  ["/out/certs/ca.pem", "/out/certs/ca-key.pem", "/out/certs/cert.pem",
   "/out/certs/key.pem", "/home/u/.ssh/id_rsa"]

/-! ## Lemmas on `Clean` and `Join` -/

namespace filepath

/-- The embedding of `Clean` agrees with the table of the tests of
`path/filepath`, and `Join` with the cases of its documentation. -/
theorem Clean_test_vectors :
    Clean "" = "." ∧ Clean "abc" = "abc" ∧ Clean "abc/def" = "abc/def" ∧
    Clean "a/b/c" = "a/b/c" ∧ Clean "." = "." ∧ Clean ".." = ".." ∧
    Clean "../.." = "../.." ∧ Clean "../../abc" = "../../abc" ∧ Clean "/abc" = "/abc" ∧
    Clean "/" = "/" ∧ Clean "abc/" = "abc" ∧ Clean "abc/def/" = "abc/def" ∧
    Clean "a/b/c/" = "a/b/c" ∧ Clean "./" = "." ∧ Clean "../" = ".." ∧
    Clean "../../" = "../.." ∧ Clean "/abc/" = "/abc" ∧
    Clean "abc//def//ghi" = "abc/def/ghi" ∧ Clean "//abc" = "/abc" ∧
    Clean "///abc" = "/abc" ∧ Clean "//abc//" = "/abc" ∧ Clean "abc//" = "abc" ∧
    Clean "abc/./def" = "abc/def" ∧ Clean "/./abc/def" = "/abc/def" ∧
    Clean "abc/." = "abc" ∧ Clean "abc/def/ghi/../jkl" = "abc/def/jkl" ∧
    Clean "abc/def/../ghi/../jkl" = "abc/jkl" ∧ Clean "abc/def/.." = "abc" ∧
    Clean "abc/def/../.." = "." ∧ Clean "/abc/def/../.." = "/" ∧
    Clean "abc/def/../../.." = ".." ∧ Clean "/abc/def/../../.." = "/" ∧
    Clean "abc/def/../../../ghi/jkl/../../../mno" = "../../mno" ∧
    Clean "/../abc" = "/abc" ∧ Clean "abc/./../def" = "def" ∧
    Clean "abc//./../def" = "def" ∧ Clean "abc/../../././../def" = "../../def" ∧
    Join [] = "" ∧ Join [""] = "" ∧ Join ["a"] = "a" ∧ Join ["a", "b"] = "a/b" ∧
    Join ["a", ""] = "a" ∧ Join ["", "b"] = "b" ∧ Join ["/", "a"] = "/a" ∧
    Join ["/", ""] = "/" ∧ Join ["a/", "b"] = "a/b" ∧ Join ["a/", ""] = "a" ∧
    Join ["", ""] = "" ∧ Join ["/", "a", "b"] = "/a/b" ∧ Join ["a", "../b"] = "b" := by
  decide

theorem splitSep_ne_nil (p : List Char) : splitSep p ≠ [] := by
  cases p with
  | nil => simp [splitSep]
  | cons c cs =>
    unfold splitSep
    split
    · simp
    · split <;> simp

theorem splitSep_append_sep (a b : List Char) :
    splitSep (a ++ Separator :: b) = splitSep a ++ splitSep b := by
  induction a with
  | nil => simp [splitSep]
  | cons c cs ih =>
    by_cases hc : c = Separator
    · simp [splitSep, hc, ih]
    · cases hs : splitSep cs with
      | nil => exact absurd hs (splitSep_ne_nil cs)
      | cons e es =>
        have hstep : splitSep (c :: (cs ++ Separator :: b)) =
            (match splitSep (cs ++ Separator :: b) with
              | [] => [[c]]
              | e :: es => (c :: e) :: es) := by
          simp [splitSep, hc]
        have hstep2 : splitSep (c :: cs) =
            (match splitSep cs with
              | [] => [[c]]
              | e :: es => (c :: e) :: es) := by
          simp [splitSep, hc]
        rw [List.cons_append, hstep, hstep2, ih, hs]
        rfl

theorem splitSep_of_not_mem (e : List Char) (h : Separator ∉ e) : splitSep e = [e] := by
  induction e with
  | nil => rfl
  | cons c cs ih =>
    have hc : c ≠ Separator := fun hc => h (by simp [hc])
    have hcs : Separator ∉ cs := fun hm => h (List.mem_cons_of_mem _ hm)
    simp [splitSep, hc, ih hcs]

theorem splitSep_joinSep (comps : List (List Char)) (hne : comps ≠ [])
    (h : ∀ e ∈ comps, Separator ∉ e) : splitSep (joinSep comps) = comps := by
  induction comps with
  | nil => exact absurd rfl hne
  | cons e es ih =>
    cases es with
    | nil => simpa [joinSep] using splitSep_of_not_mem e (h e (by simp))
    | cons e2 es2 =>
      have h1 := splitSep_of_not_mem e (h e (by simp))
      have h2 := ih (by simp) (fun x hx => h x (List.mem_cons_of_mem _ hx))
      simp only [joinSep]
      rw [splitSep_append_sep, h1, h2]
      rfl

theorem not_mem_of_mem_splitSep (p : List Char) :
    ∀ e ∈ splitSep p, Separator ∉ e := by
  induction p with
  | nil => simp [splitSep]
  | cons c cs ih =>
    by_cases hc : c = Separator
    · intro e he
      simp only [splitSep, hc, if_true, List.mem_cons] at he
      rcases he with he | he
      · subst he; simp
      · exact ih e he
    · intro e he
      simp only [splitSep, hc, if_false] at he
      cases hs : splitSep cs with
      | nil => exact absurd hs (splitSep_ne_nil cs)
      | cons e1 es =>
        rw [hs] at he ih
        simp only [List.mem_cons] at he
        rcases he with he | he
        · subst he
          intro hm
          simp only [List.mem_cons] at hm
          rcases hm with hm | hm
          · exact hc hm.symm
          · exact ih e1 (by simp) hm
        · exact ih e (by simp [he])

theorem cleanStep_element (r : Bool) (b : Buf) (e : List Char) (he : IsElement e) :
    cleanStep r b e = ⟨b.ups, e :: b.elems⟩ := by
  obtain ⟨h1, h2, h3, _⟩ := he
  simp [cleanStep, h1, h2, h3]

theorem foldl_cleanStep_elements (r : Bool) (es : List (List Char)) (b : Buf)
    (h : ∀ e ∈ es, IsElement e) :
    es.foldl (cleanStep r) b = ⟨b.ups, es.reverse ++ b.elems⟩ := by
  induction es generalizing b with
  | nil => rfl
  | cons e es ih =>
    rw [List.foldl_cons, cleanStep_element r b e (h e (by simp)),
      ih _ (fun x hx => h x (List.mem_cons_of_mem _ hx))]
    simp

theorem foldl_cleanStep_dotdots (n : Nat) (b : Buf) (hb : b.elems = []) :
    (List.replicate n ['.', '.']).foldl (cleanStep false) b = ⟨b.ups + n, []⟩ := by
  induction n generalizing b with
  | zero => cases b; simp_all
  | succ n ih =>
    rw [List.replicate_succ, List.foldl_cons]
    have hstep : cleanStep false b ['.', '.'] = ⟨b.ups + 1, []⟩ := by
      cases b
      simp_all [cleanStep]
    rw [hstep, ih _ rfl]
    simp [Nat.add_assoc, Nat.add_comm 1 n]

theorem cleanStep_wf (r : Bool) (b : Buf) (e : List Char) (hb : b.WF r)
    (he : Separator ∉ e) : (cleanStep r b e).WF r := by
  obtain ⟨h1, h2⟩ := hb
  unfold cleanStep
  split
  · exact ⟨h1, h2⟩
  · split
    · exact ⟨h1, h2⟩
    · split
      · cases hel : b.elems with
        | nil =>
          cases r with
          | true => simpa using ⟨h1, h2⟩
          | false => exact ⟨by simp [hel], by simp⟩
        | cons x rest =>
          refine ⟨?_, h2⟩
          intro y hy
          exact h1 y (by simp [hel, hy])
      · refine ⟨?_, h2⟩
        intro y hy
        simp only [List.mem_cons] at hy
        rcases hy with hy | hy
        · subst hy
          exact ⟨by assumption, by assumption, by assumption, he⟩
        · exact h1 y hy

theorem foldl_cleanStep_wf (r : Bool) (es : List (List Char)) (b : Buf) (hb : b.WF r)
    (h : ∀ e ∈ es, Separator ∉ e) : (es.foldl (cleanStep r) b).WF r := by
  induction es generalizing b with
  | nil => exact hb
  | cons e es ih =>
    rw [List.foldl_cons]
    exact ih _ (cleanStep_wf r b e hb (h e (by simp)))
      (fun x hx => h x (List.mem_cons_of_mem _ hx))

theorem cleanBuf_wf (p : List Char) : (cleanBuf p).WF (isRooted p) :=
  foldl_cleanStep_wf _ _ _ ⟨by simp, fun _ => rfl⟩ (not_mem_of_mem_splitSep p)

theorem comps_not_mem (r : Bool) (b : Buf) (hb : b.WF r) :
    ∀ e ∈ b.comps, e ≠ [] ∧ Separator ∉ e := by
  intro e he
  simp only [Buf.comps, List.mem_append, List.mem_replicate, List.mem_reverse] at he
  rcases he with ⟨_, he⟩ | he
  · subst he
    exact ⟨by simp, by decide⟩
  · exact ⟨(hb.1 e he).1, (hb.1 e he).2.2.2⟩

theorem isRooted_joinSep (comps : List (List Char)) (hne : comps ≠ [])
    (h : ∀ e ∈ comps, e ≠ [] ∧ Separator ∉ e) : isRooted (joinSep comps) = false := by
  cases comps with
  | nil => exact absurd rfl hne
  | cons e es =>
    obtain ⟨h1, h2⟩ := h e (by simp)
    cases e with
    | nil => exact absurd rfl h1
    | cons c cs =>
      have hc : c ≠ Separator := fun hc => h2 (by simp [hc])
      cases es <;> simp [joinSep, isRooted, hc]

theorem render_ne_nil (r : Bool) (b : Buf) (hb : b.WF r) : render r b ≠ [] := by
  unfold render
  split
  · simp
  · split
    · simp
    · rename_i hc
      intro hj
      have := isRooted_joinSep b.comps hc (comps_not_mem r b hb)
      cases hcomps : b.comps with
      | nil => exact hc hcomps
      | cons e es =>
        have he := (comps_not_mem r b hb) e (by simp [hcomps])
        rw [hcomps] at hj
        cases es with
        | nil => exact he.1 (by simpa [joinSep] using hj)
        | cons e2 es2 => simp [joinSep] at hj

theorem isRooted_render (r : Bool) (b : Buf) (hb : b.WF r) : isRooted (render r b) = r := by
  cases r with
  | true => simp [render, isRooted]
  | false =>
    by_cases hc : b.comps = []
    · simp [render, hc, isRooted, Separator]
    · simp [render, hc, isRooted_joinSep b.comps hc (comps_not_mem false b hb)]

/-- Cleaning the text of a well-formed buffer rebuilds the buffer. -/
theorem foldl_splitSep_render (r : Bool) (b : Buf) (hb : b.WF r) :
    (splitSep (render r b)).foldl (cleanStep r) ⟨0, []⟩ = b := by
  have hns := comps_not_mem r b hb
  have helems : ∀ e ∈ b.elems.reverse, IsElement e := fun e he => hb.1 e (by simpa using he)
  cases b with
  | mk ups elems =>
    cases r with
    | true =>
      have hu : ups = 0 := hb.2 rfl
      subst hu
      by_cases hc : elems = []
      · subst hc
        simp [render, Buf.comps, joinSep, splitSep, cleanStep]
      · have hc2 : (Buf.mk 0 elems).comps ≠ [] := by simp [Buf.comps, hc]
        have hsplit : splitSep (render true ⟨0, elems⟩) = [] :: (Buf.mk 0 elems).comps := by
          simp only [render, if_true]
          rw [show Separator :: joinSep (Buf.mk 0 elems).comps =
            [] ++ Separator :: joinSep (Buf.mk 0 elems).comps from rfl, splitSep_append_sep,
            splitSep_joinSep _ hc2 (fun e he => (hns e he).2)]
          rfl
        rw [hsplit, List.foldl_cons]
        have h0 : cleanStep true ⟨0, []⟩ [] = ⟨0, []⟩ := by simp [cleanStep]
        rw [h0]
        simp only [Buf.comps, List.replicate_zero, List.nil_append]
        rw [foldl_cleanStep_elements true _ _ helems]
        simp
    | false =>
      by_cases hc : (Buf.mk ups elems).comps = []
      · have hu : ups = 0 ∧ elems = [] := by
          simpa [Buf.comps, List.replicate_eq_nil_iff] using hc
        obtain ⟨hu, he⟩ := hu
        subst hu he
        simp [render, Buf.comps, splitSep, cleanStep, Separator]
      · have hsplit : splitSep (render false ⟨ups, elems⟩) = (Buf.mk ups elems).comps := by
          simp only [render, hc, if_false]
          exact splitSep_joinSep _ hc (fun e he => (hns e he).2)
        rw [hsplit]
        simp only [Buf.comps, List.foldl_append]
        rw [foldl_cleanStep_dotdots ups _ rfl, foldl_cleanStep_elements false _ _ helems]
        simp

theorem cleanBuf_render (r : Bool) (b : Buf) (hb : b.WF r) : cleanBuf (render r b) = b := by
  unfold cleanBuf
  rw [isRooted_render r b hb]
  exact foldl_splitSep_render r b hb

theorem render_injective (r : Bool) (b1 b2 : Buf) (h1 : b1.WF r) (h2 : b2.WF r)
    (h : render r b1 = render r b2) : b1 = b2 := by
  rw [← cleanBuf_render r b1 h1, ← cleanBuf_render r b2 h2, h]

theorem cleanChars_of_ne_nil (p : List Char) (hp : p ≠ []) :
    cleanChars p = render (isRooted p) (cleanBuf p) := by
  simp [cleanChars, hp, cleanBuf]

theorem isRooted_append (p q : List Char) (hp : p ≠ []) : isRooted (p ++ q) = isRooted p := by
  cases p with
  | nil => exact absurd rfl hp
  | cons c cs => rfl

theorem cleanBuf_append_element (p e : List Char) (hp : p ≠ []) (he : IsElement e) :
    cleanBuf (p ++ Separator :: e) = ⟨(cleanBuf p).ups, e :: (cleanBuf p).elems⟩ := by
  unfold cleanBuf
  rw [isRooted_append p _ hp, splitSep_append_sep, splitSep_of_not_mem e he.2.2.2,
    List.foldl_append, List.foldl_cons, List.foldl_nil, cleanStep_element _ _ e he]

theorem cleanBuf_element (e : List Char) (he : IsElement e) :
    cleanBuf e = ⟨0, [e]⟩ ∧ isRooted e = false := by
  have hr : isRooted e = false := by
    cases e with
    | nil => rfl
    | cons c cs =>
      have hc : c ≠ Separator := fun hc => he.2.2.2 (by simp [hc])
      simp [isRooted, hc]
  refine ⟨?_, hr⟩
  unfold cleanBuf
  rw [splitSep_of_not_mem e he.2.2.2, List.foldl_cons, List.foldl_nil,
    cleanStep_element _ _ e he]

/-- Joining a path and a real element appends the element to the cleaned
path. -/
theorem joinChars_pair (p e : List Char) (he : IsElement e) :
    joinChars [p, e] = render (isRooted p) ⟨(cleanBuf p).ups, e :: (cleanBuf p).elems⟩ := by
  by_cases hp : p = []
  · subst hp
    have h := cleanBuf_element e he
    simp only [joinChars, List.dropWhile, decide_True, decide_eq_true_eq, he.1, decide_False]
    rw [show joinSep [e] = e from rfl, cleanChars_of_ne_nil e he.1, h.1, h.2]
    rfl
  · simp only [joinChars, List.dropWhile, hp, decide_False]
    rw [show joinSep [p, e] = p ++ Separator :: e from rfl,
      cleanChars_of_ne_nil _ (by simp [hp]), isRooted_append p _ hp,
      cleanBuf_append_element p e hp he]

/-- Joining a path and two real elements appends both to the cleaned path. -/
theorem joinChars_triple (p a e : List Char) (ha : IsElement a) (he : IsElement e) :
    joinChars [p, a, e] =
      render (isRooted p) ⟨(cleanBuf p).ups, e :: a :: (cleanBuf p).elems⟩ := by
  by_cases hp : p = []
  · subst hp
    have h := cleanBuf_element a ha
    simp only [joinChars, List.dropWhile, decide_True, decide_eq_true_eq, ha.1, decide_False]
    rw [show joinSep [a, e] = a ++ Separator :: e from rfl,
      cleanChars_of_ne_nil _ (by simp [ha.1]), isRooted_append a _ ha.1,
      cleanBuf_append_element a e ha.1 he, h.1, h.2]
    rfl
  · simp only [joinChars, List.dropWhile, hp, decide_False]
    rw [show joinSep [p, a, e] = (p ++ Separator :: a) ++ Separator :: e from by
        simp [joinSep],
      cleanChars_of_ne_nil _ (by simp [hp]), isRooted_append _ _ (by simp [hp]),
      isRooted_append p _ hp, cleanBuf_append_element _ e (by simp [hp]) he,
      cleanBuf_append_element p a hp ha]

theorem push_wf (r : Bool) (b : Buf) (e : List Char) (hb : b.WF r) (he : IsElement e) :
    Buf.WF r ⟨b.ups, e :: b.elems⟩ := by
  refine ⟨?_, hb.2⟩
  intro x hx
  simp only [List.mem_cons] at hx
  rcases hx with hx | hx
  · subst hx; exact he
  · exact hb.1 x hx

/-- Joining the text of a well-formed buffer and a real element appends the
element to the buffer. -/
theorem joinChars_render (r : Bool) (b : Buf) (e : List Char) (hb : b.WF r)
    (he : IsElement e) :
    joinChars [render r b, e] = render r ⟨b.ups, e :: b.elems⟩ := by
  rw [joinChars_pair _ e he, isRooted_render r b hb, cleanBuf_render r b hb]

end filepath

/-! ## Lemmas on traces -/

theorem sanLists_append (xs ys : List Event) :
    sanLists (xs ++ ys) = sanLists xs ++ sanLists ys := by
  induction xs with
  | nil => rfl
  | cons e es ih => cases e <;> simp [sanLists, ih]

theorem issuerOutputs_append (xs ys : List Event) :
    issuerOutputs (xs ++ ys) = issuerOutputs xs ++ issuerOutputs ys := by
  induction xs with
  | nil => rfl
  | cons e es ih => cases e <;> simp [issuerOutputs, ih]

/-! ## `BootstrapClientCert` -/

/-- C1: when `os.Stat` finds the CA certificate `<outDir>/certs/ca.pem`,
`BootstrapClientCert` returns nil, leaves the filesystem as it was and does
nothing but the stat and the notice: certificate generation is not invoked.
Consequently, given that a successful generation leaves the CA certificate
in place, a call made right after a successful call returns nil with the
filesystem unchanged and only the stat and the notice added to the trace. -/
theorem BootstrapClientCert_existing_ca_noop {FS : Type} (env : Env FS) (cfg : Config)
    (st : Proc FS) (hex : env.Stat st.fs (certsFile cfg "ca.pem") = none) :
    ((BootstrapClientCert env cfg st).1 = none ∧
      (BootstrapClientCert env cfg st).2.fs = st.fs ∧
      (BootstrapClientCert env cfg st).2.trace = st.trace ++
        [.stat (certsFile cfg "ca.pem"),
         .print "Client certs found, skipping client cert creation\n"]) ∧
    ((∀ fs, (env.BootstrapCertificates (bootstrapOpts cfg) fs).1 = none →
        env.Stat (env.BootstrapCertificates (bootstrapOpts cfg) fs).2
          (certsFile cfg "ca.pem") = none) →
      ∀ st0 : Proc FS, (BootstrapClientCert env cfg st0).1 = none →
        (BootstrapClientCert env cfg (BootstrapClientCert env cfg st0).2).1 = none ∧
        (BootstrapClientCert env cfg (BootstrapClientCert env cfg st0).2).2.fs =
          (BootstrapClientCert env cfg st0).2.fs ∧
        (BootstrapClientCert env cfg (BootstrapClientCert env cfg st0).2).2.trace =
          (BootstrapClientCert env cfg st0).2.trace ++
            [.stat (certsFile cfg "ca.pem"),
             .print "Client certs found, skipping client cert creation\n"]) := by
  have key : ∀ s : Proc FS, os.IsNotExist (env.Stat s.fs (certsFile cfg "ca.pem")) = false →
      (BootstrapClientCert env cfg s).1 = none ∧
      (BootstrapClientCert env cfg s).2.fs = s.fs ∧
      (BootstrapClientCert env cfg s).2.trace = s.trace ++
        [.stat (certsFile cfg "ca.pem"),
         .print "Client certs found, skipping client cert creation\n"] := by
    intro s hs
    simp [BootstrapClientCert, hs, Proc.log]
  refine ⟨key st (by rw [hex]; rfl), ?_⟩
  intro hgen st0 h0
  apply key
  by_cases hne : os.IsNotExist (env.Stat st0.fs (certsFile cfg "ca.pem")) = true
  · have hgen0 := hgen st0.fs
    cases hb : env.BootstrapCertificates (bootstrapOpts cfg) st0.fs with
    | mk e fs1 =>
      rw [hb] at hgen0
      cases e with
      | some err => simp [BootstrapClientCert, hne, Proc.call, Proc.log, hb] at h0
      | none =>
        have hs : env.Stat fs1 (certsFile cfg "ca.pem") = none := hgen0 rfl
        have h1 : (BootstrapClientCert env cfg st0).2.fs = fs1 := by
          simp [BootstrapClientCert, hne, Proc.call, Proc.log, hb]
        rw [h1, hs]
        rfl
  · have hf : os.IsNotExist (env.Stat st0.fs (certsFile cfg "ca.pem")) = false := by
      simpa using hne
    simp [BootstrapClientCert, hf, Proc.log]

/-- Witness of C1: on the demonstration filesystem that holds the certs,
the CA certificate is found and the call is a no-op. -/
theorem BootstrapClientCert_existing_ca_noop_witness :
    demoEnv.Stat demoCerts (certsFile demoConfig "ca.pem") = none ∧
    (BootstrapClientCert demoEnv demoConfig ⟨demoCerts, []⟩).1 = none ∧
    (BootstrapClientCert demoEnv demoConfig ⟨demoCerts, []⟩).2.fs = demoCerts :=
  ⟨by decide,
   (BootstrapClientCert_existing_ca_noop demoEnv demoConfig ⟨demoCerts, []⟩ (by decide)).1.1,
   (BootstrapClientCert_existing_ca_noop demoEnv demoConfig ⟨demoCerts, []⟩ (by decide)).1.2.1⟩

/-- C2 (the code at the failing input): on an empty filesystem where
`os.Stat` fails with a permission error, `BootstrapClientCert` returns nil
although the CA certificate does not exist and nothing was generated: the
error of the existence check is reported as success. -/
theorem BootstrapClientCert_stat_error_is_success :
    deniedEnv.Stat [] (certsFile demoConfig "ca.pem") =
      some (.other "stat /out/certs/ca.pem: permission denied") ∧
    (BootstrapClientCert deniedEnv demoConfig ⟨[], []⟩).1 = none ∧
    (BootstrapClientCert deniedEnv demoConfig ⟨[], []⟩).2.fs = [] ∧
    (BootstrapClientCert deniedEnv demoConfig ⟨[], []⟩).2.trace =
      [.stat "/out/certs/ca.pem",
       .print "Client certs found, skipping client cert creation\n"] := by
  decide

/-! ## `CreateServerCert` -/

/-- C3 (counterexample): with `ip = ""` and `dns = ""`, in a world whose
issuer accepts what it is given, `CreateServerCert` returns nil, the issuer
is asked to write `server.pem` and `server-key.pem` with the SAN list
`["", ""]`, and both files appear on the filesystem. -/
theorem CreateServerCert_empty_san_reaches_issuer :
    (CreateServerCert demoEnv demoConfig "" "" ⟨demoCerts, []⟩).1 = none ∧
    issuerOutputs (CreateServerCert demoEnv demoConfig "" "" ⟨demoCerts, []⟩).2.trace =
      ["/out/machines/node1/server.pem", "/out/machines/node1/server-key.pem"] ∧
    sanLists (CreateServerCert demoEnv demoConfig "" "" ⟨demoCerts, []⟩).2.trace = [["", ""]] ∧
    (CreateServerCert demoEnv demoConfig "" "" ⟨demoCerts, []⟩).2.fs ≠ demoCerts := by
  decide

/-- C3 (amended): `CreateServerCert` does not validate its SAN input. With
`ip = ""` and `dns = ""` it asks the issuer once, with the SAN list `["", ""]`
and the output paths `server.pem` and `server-key.pem` of the machine
directory; the error it returns and the filesystem it leaves are those of the
issuer. -/
theorem CreateServerCert_empty_san_delegates {FS : Type} (env : Env FS) (cfg : Config)
    (st : Proc FS) :
    (CreateServerCert env cfg "" "" st).1 =
      (env.GenerateCert ["", ""] (machineFile cfg "server.pem")
        (machineFile cfg "server-key.pem") (machineFile cfg "ca.pem")
        (certsFile cfg "ca-key.pem") cfg.serverDNS 2048 st.fs).1 ∧
    (CreateServerCert env cfg "" "" st).2.fs =
      (env.GenerateCert ["", ""] (machineFile cfg "server.pem")
        (machineFile cfg "server-key.pem") (machineFile cfg "ca.pem")
        (certsFile cfg "ca-key.pem") cfg.serverDNS 2048 st.fs).2 ∧
    sanLists (CreateServerCert env cfg "" "" st).2.trace = sanLists st.trace ++ [["", ""]] ∧
    issuerOutputs (CreateServerCert env cfg "" "" st).2.trace =
      issuerOutputs st.trace ++
        [machineFile cfg "server.pem", machineFile cfg "server-key.pem"] := by
  refine ⟨rfl, rfl, ?_, ?_⟩
  · simp [CreateServerCert, Proc.call, sanLists_append, sanLists]
  · simp [CreateServerCert, Proc.call, issuerOutputs_append, issuerOutputs]

/-- C4 (counterexample): with `ip = "10.0.0.5"` and no DNS name, the SAN list
handed to the issuer is `["10.0.0.5", ""]`: it holds an empty entry and is
not the list of the one value given. -/
theorem CreateServerCert_san_keeps_empty_entry :
    sanLists (CreateServerCert demoEnv demoConfig "10.0.0.5" "" ⟨demoCerts, []⟩).2.trace =
      [["10.0.0.5", ""]] ∧
    sanLists (CreateServerCert demoEnv demoConfig "10.0.0.5" "" ⟨demoCerts, []⟩).2.trace ≠
      [["10.0.0.5"]] ∧
    (∃ l ∈ sanLists
        (CreateServerCert demoEnv demoConfig "10.0.0.5" "" ⟨demoCerts, []⟩).2.trace,
      "" ∈ l) := by
  decide

/-- C4 (amended): for every `ip` and `dns`, `CreateServerCert` calls the
issuer once and the SAN list it hands over is `[ip, dns]`, in this order,
whether or not one of the two is the empty string; for `10.0.0.5` and
`host.example.com` it is `["10.0.0.5", "host.example.com"]`. -/
theorem CreateServerCert_san_is_ip_dns {FS : Type} (env : Env FS) (cfg : Config)
    (ip dns : String) (st : Proc FS) :
    sanLists (CreateServerCert env cfg ip dns st).2.trace = sanLists st.trace ++ [[ip, dns]] ∧
    sanLists (CreateServerCert env cfg "10.0.0.5" "host.example.com" st).2.trace =
      sanLists st.trace ++ [["10.0.0.5", "host.example.com"]] := by
  constructor <;> simp [CreateServerCert, Proc.call, sanLists_append, sanLists]

/-! ## `checkFlags` -/

/-- C5 (the code at the failing input): with `--server-dns`,
`--machine-name` and `--ssh-key-path` set and `--server-ip` left at its
default, the empty string, `checkFlags` stops the process with
`--server-ip must be set`, and `main` ends with status 1 before any step;
whatever the other flags are, an empty `--server-ip` is rejected. The other
half of the claim holds: with the server IP, the machine name and the SSH key
path set, an empty `--server-dns` is accepted. -/
theorem checkFlags_rejects_empty_ip_with_dns :
    checkFlags { flagDefaults with
        serverDNS := "host.example.com", machineName := "node1",
        sshKeyPath := "/home/u/.ssh/id_rsa" } = some "--server-ip must be set" ∧
    main demoEnv { flagDefaults with
        serverDNS := "host.example.com", machineName := "node1",
        sshKeyPath := "/home/u/.ssh/id_rsa" } ⟨demoCerts, []⟩ =
      (1, ⟨demoCerts, [.fatal "--server-ip must be set"]⟩) ∧
    (∀ cfg : Config, checkFlags { cfg with serverIP := "" } = some "--server-ip must be set") ∧
    (∀ cfg : Config, cfg.serverIP ≠ "" → cfg.machineName ≠ "" → cfg.sshKeyPath ≠ "" →
      checkFlags { cfg with serverDNS := "" } = none) := by
  refine ⟨by decide, rfl, ?_, ?_⟩
  · intro cfg
    simp [checkFlags]
  · intro cfg h1 h2 h3
    simp [checkFlags, h1, h2, h3]

/-! ## `CreateConfigJSON` -/

/-- C6: the paths of the authentication section of the descriptor are the
paths at which the artifacts are produced. The CA and client paths are those
of the options `BootstrapClientCert` builds: when `os.Stat` reports that
`ca.pem` does not exist it calls `cert.BootstrapCertificates` exactly once,
with these options, and returns what generation returns (on an empty
filesystem under `/out` the four files are produced at the descriptor's
paths); no call of it carries other options; the server
certificate and key paths are the two output paths `CreateServerCert` hands
to the issuer. Each is the join of the output root with `certs` (respectively
`machines` and the machine name) and the file name; for the output root
`/out` and the machine `node1` they are `/out/certs/ca.pem`, ...,
`/out/machines/node1/server-key.pem`. -/
theorem configHost_auth_paths_are_artifact_paths (lib : LibConsts) (cfg : Config) :
    ((configHost lib cfg).HostOptions.AuthOptions.CaCertPath = (bootstrapOpts cfg).CaCertPath ∧
      (configHost lib cfg).HostOptions.AuthOptions.CaPrivateKeyPath =
        (bootstrapOpts cfg).CaPrivateKeyPath ∧
      (configHost lib cfg).HostOptions.AuthOptions.ClientCertPath =
        (bootstrapOpts cfg).ClientCertPath ∧
      (configHost lib cfg).HostOptions.AuthOptions.ClientKeyPath =
        (bootstrapOpts cfg).ClientKeyPath) ∧
    (∀ (FS : Type) (env : Env FS) (fs : FS) (e : Event),
      e ∈ (BootstrapClientCert env cfg ⟨fs, []⟩).2.trace → e.isGeneration = true →
        e = .bootstrapCertificates (bootstrapOpts cfg)) ∧
    (∀ (FS : Type) (env : Env FS) (ip dns : String) (fs : FS),
      issuerOutputs (CreateServerCert env cfg ip dns ⟨fs, []⟩).2.trace =
        [(configHost lib cfg).HostOptions.AuthOptions.ServerCertPath,
         (configHost lib cfg).HostOptions.AuthOptions.ServerKeyPath]) ∧
    ((configHost lib cfg).HostOptions.AuthOptions.CaCertPath =
        filepath.Join [filepath.Join [cfg.outDir, "certs"], "ca.pem"] ∧
      (configHost lib cfg).HostOptions.AuthOptions.CaPrivateKeyPath =
        filepath.Join [filepath.Join [cfg.outDir, "certs"], "ca-key.pem"] ∧
      (configHost lib cfg).HostOptions.AuthOptions.ClientCertPath =
        filepath.Join [filepath.Join [cfg.outDir, "certs"], "cert.pem"] ∧
      (configHost lib cfg).HostOptions.AuthOptions.ClientKeyPath =
        filepath.Join [filepath.Join [cfg.outDir, "certs"], "key.pem"] ∧
      (configHost lib cfg).HostOptions.AuthOptions.ServerCertPath =
        filepath.Join [filepath.Join [cfg.outDir, "machines", cfg.machineName], "server.pem"] ∧
      (configHost lib cfg).HostOptions.AuthOptions.ServerKeyPath =
        filepath.Join [filepath.Join [cfg.outDir, "machines", cfg.machineName],
          "server-key.pem"]) ∧
    (configHost lib demoConfig).HostOptions.AuthOptions =
      { CertDir := "/out/certs"
        CaCertPath := "/out/certs/ca.pem"
        CaPrivateKeyPath := "/out/certs/ca-key.pem"
        ClientCertPath := "/out/certs/cert.pem"
        ClientKeyPath := "/out/certs/key.pem"
        ServerCertPath := "/out/machines/node1/server.pem"
        ServerKeyPath := "/out/machines/node1/server-key.pem"
        StorePath := "/out/machines/node1" } ∧
    (∀ (FS : Type) (env : Env FS) (fs : FS),
      os.IsNotExist (env.Stat fs (certsFile cfg "ca.pem")) = true →
        (BootstrapClientCert env cfg ⟨fs, []⟩).2.trace.filter Event.isGeneration =
          [.bootstrapCertificates (bootstrapOpts cfg)] ∧
        (BootstrapClientCert env cfg ⟨fs, []⟩).1 =
          (env.BootstrapCertificates (bootstrapOpts cfg) fs).1 ∧
        (BootstrapClientCert env cfg ⟨fs, []⟩).2.fs =
          (env.BootstrapCertificates (bootstrapOpts cfg) fs).2) ∧
    (BootstrapClientCert demoEnv demoConfig ⟨[], []⟩ =
      (none,
        ⟨["/out/certs/ca.pem", "/out/certs/ca-key.pem", "/out/certs/cert.pem",
          "/out/certs/key.pem"],
         [.stat "/out/certs/ca.pem",
          .bootstrapCertificates
            { CertDir := "/out/certs"
              CaCertPath := "/out/certs/ca.pem"
              CaPrivateKeyPath := "/out/certs/ca-key.pem"
              ClientCertPath := "/out/certs/cert.pem"
              ClientKeyPath := "/out/certs/key.pem" },
          .print "Client cert files sucessfully created\n"]⟩)) := by
  refine ⟨⟨rfl, rfl, rfl, rfl⟩, ?_, ?_, ⟨rfl, rfl, rfl, rfl, rfl, rfl⟩, rfl, ?_, rfl⟩
  rotate_left 2
  · intro FS env fs hne
    cases hb : env.BootstrapCertificates (bootstrapOpts cfg) fs with
    | mk r fs1 =>
      cases r <;>
        simp [BootstrapClientCert, hne, Proc.call, Proc.log, hb, List.filter,
          Event.isGeneration]
  · intro FS env fs e he hgen
    by_cases hne : os.IsNotExist (env.Stat fs (certsFile cfg "ca.pem")) = true
    · cases hb : env.BootstrapCertificates (bootstrapOpts cfg) fs with
      | mk r fs1 =>
        cases r with
        | none =>
          simp [BootstrapClientCert, hne, Proc.call, Proc.log, hb] at he
          rcases he with he | he | he
          · subst he; simp [Event.isGeneration] at hgen
          · exact he
          · subst he; simp [Event.isGeneration] at hgen
        | some err =>
          simp [BootstrapClientCert, hne, Proc.call, Proc.log, hb] at he
          rcases he with he | he
          · subst he; simp [Event.isGeneration] at hgen
          · exact he
    · have hf : os.IsNotExist (env.Stat fs (certsFile cfg "ca.pem")) = false := by
        simpa using hne
      simp [BootstrapClientCert, hf, Proc.log] at he
      rcases he with he | he <;> subst he <;> simp [Event.isGeneration] at hgen
  · intro FS env ip dns fs
    simp [CreateServerCert, Proc.call, issuerOutputs, configHost]

/-- C7: the descriptor carries the machine name as `Name`, and its driver
section holds the machine name, the server IP, the SSH user, port and key
path as given, with the machine directory `<outDir>/machines/<machineName>`
as store path; for `node1`, `203.0.113.9`, `root` and port 22 it carries
exactly these values. -/
theorem configHost_identity_and_driver (lib : LibConsts) (cfg : Config) :
    ((configHost lib cfg).Name = cfg.machineName ∧
      (configHost lib cfg).Driver.base.MachineName = cfg.machineName ∧
      (configHost lib cfg).Driver.base.IPAddress = cfg.serverIP ∧
      (configHost lib cfg).Driver.base.SSHUser = cfg.sshUser ∧
      (configHost lib cfg).Driver.base.SSHPort = cfg.sshPort ∧
      (configHost lib cfg).Driver.base.SSHKeyPath = cfg.sshKeyPath ∧
      (configHost lib cfg).Driver.base.StorePath =
        filepath.Join [cfg.outDir, "machines", cfg.machineName]) ∧
    ((configHost lib demoConfig).Name = "node1" ∧
      (configHost lib demoConfig).Driver.base =
        { MachineName := "node1", StorePath := "/out/machines/node1",
          IPAddress := "203.0.113.9", SSHUser := "root",
          SSHKeyPath := "/home/u/.ssh/id_rsa", SSHPort := 22 }) ∧
    (∀ (FS : Type) (env : Env FS) (st : Proc FS),
      (CreateConfigJSON env cfg st).2.trace =
        st.trace ++ [.save cfg.outDir (configHost env.lib cfg)]) := by
  exact ⟨⟨rfl, rfl, rfl, rfl, rfl, rfl, rfl⟩, ⟨rfl, rfl⟩, fun _ _ _ => rfl⟩

/-- C8: whatever the flags and the constants of the library are, the
descriptor has `TLSVerify` true and the swarm section `tcp://0.0.0.0:3376`,
`swarm:latest`, `spread`; two runs with different flags have the same engine
and swarm sections. -/
theorem configHost_subsystem_defaults (lib : LibConsts) (cfg cfg2 : Config) :
    (configHost lib cfg).HostOptions.EngineOptions.TLSVerify = true ∧
    (configHost lib cfg).HostOptions.SwarmOptions =
      { Host := "tcp://0.0.0.0:3376", Image := "swarm:latest", Strategy := "spread" } ∧
    (configHost lib cfg).HostOptions.EngineOptions =
      (configHost lib cfg2).HostOptions.EngineOptions ∧
    (configHost lib cfg).HostOptions.SwarmOptions =
      (configHost lib cfg2).HostOptions.SwarmOptions :=
  ⟨rfl, rfl, rfl, rfl⟩

/-! ## `main` -/

/-- C9 (the code at the failing input): on a read-only filesystem that holds
the certs but not the machine directory, `os.MkdirAll` fails in `createDir`,
the error is dropped, and `main` goes on to the copy step: it opens
`ca.pem` and tries to create its copy, and only the failure of that later
step ends the run with status 1. -/
theorem main_runs_copy_after_failed_createDir :
    (readOnlyEnv.MkdirAll "/out/machines/node1" demoCerts).1 =
      some (.other "mkdir /out/machines/node1: read-only file system") ∧
    main readOnlyEnv demoConfig ⟨demoCerts, []⟩ =
      (1, ⟨demoCerts,
        [.stat "/out/certs/ca.pem",
         .print "Client certs found, skipping client cert creation\n",
         .stat "/out/machines/node1",
         .mkdirAll "/out/machines/node1",
         .openFile "/out/certs/ca.pem",
         .create "/out/machines/node1/ca.pem",
         .print ("Fail to copy file from client to server path " ++
           "open /out/machines/node1/ca.pem: read-only file system\n")]⟩) ∧
    (main readOnlyEnv demoConfig ⟨demoCerts, []⟩).2.trace.any Event.isLaterStep = true := by
  refine ⟨by decide, ?_, by decide⟩
  rfl

/-! ## The layout of the output root -/

theorem machinePath_data (cfg : Config) (h : isPathElement cfg.machineName) :
    (machinePath cfg).data =
      filepath.render (filepath.isRooted cfg.outDir.data)
        ⟨(filepath.cleanBuf cfg.outDir.data).ups,
          cfg.machineName.data :: "machines".data :: (filepath.cleanBuf cfg.outDir.data).elems⟩ := by
  simp only [machinePath, filepath.Join, List.map]
  exact filepath.joinChars_triple _ _ _ (by decide) h

theorem certsPath_data (cfg : Config) :
    (certsPath cfg).data =
      filepath.render (filepath.isRooted cfg.outDir.data)
        ⟨(filepath.cleanBuf cfg.outDir.data).ups,
          "certs".data :: (filepath.cleanBuf cfg.outDir.data).elems⟩ := by
  simp only [certsPath, filepath.Join, List.map]
  exact filepath.joinChars_pair _ _ (by decide)

theorem machineFile_data (cfg : Config) (f : String) (h : isPathElement cfg.machineName)
    (hf : isPathElement f) :
    (machineFile cfg f).data =
      filepath.render (filepath.isRooted cfg.outDir.data)
        ⟨(filepath.cleanBuf cfg.outDir.data).ups,
          f.data :: cfg.machineName.data :: "machines".data ::
            (filepath.cleanBuf cfg.outDir.data).elems⟩ := by
  simp only [machineFile, filepath.Join, List.map]
  rw [machinePath_data cfg h]
  exact filepath.joinChars_render _ _ _
    (filepath.push_wf _ _ _ (filepath.push_wf _ _ _ (filepath.cleanBuf_wf _) (by decide)) h) hf

theorem certsFile_data (cfg : Config) (f : String) (hf : isPathElement f) :
    (certsFile cfg f).data =
      filepath.render (filepath.isRooted cfg.outDir.data)
        ⟨(filepath.cleanBuf cfg.outDir.data).ups,
          f.data :: "certs".data :: (filepath.cleanBuf cfg.outDir.data).elems⟩ := by
  simp only [certsFile, filepath.Join, List.map]
  rw [certsPath_data cfg]
  exact filepath.joinChars_render _ _ _
    (filepath.push_wf _ _ _ (filepath.cleanBuf_wf _) (by decide)) hf

/-- C10 (counterexample): the machine names `node1` and `node1/` are
distinct and not empty, yet both have the machine directory
`/out/machines/node1`; and for the machine name `../certs` the machine
directory is the certs directory, so that `machineFile "ca.pem"` is
`certsFile "ca.pem"`. -/
theorem machinePath_not_isolated_by_name :
    ("node1" : String) ≠ "node1/" ∧
    machinePath { demoConfig with machineName := "node1" } = "/out/machines/node1" ∧
    machinePath { demoConfig with machineName := "node1/" } = "/out/machines/node1" ∧
    machinePath { demoConfig with machineName := "../certs" } =
      certsPath { demoConfig with machineName := "../certs" } ∧
    machineFile { demoConfig with machineName := "../certs" } "ca.pem" =
      certsFile { demoConfig with machineName := "../certs" } "ca.pem" := by
  decide

/-- C10 (amended): for every output root and every two distinct machine
names that are single path elements (not empty, without a separator, neither
`.` nor `..`), the two machine directories differ; for such a machine name
the machine directory is not the certs directory, and for every file name
`f` that is a single path element `machineFile f` differs from
`certsFile f`. -/
theorem machine_trees_isolated_for_element_names (cfg : Config) (m1 m2 f : String)
    (h1 : isPathElement m1) (h2 : isPathElement m2) (hne : m1 ≠ m2)
    (hf : isPathElement f) :
    machinePath { cfg with machineName := m1 } ≠ machinePath { cfg with machineName := m2 } ∧
    machinePath { cfg with machineName := m1 } ≠ certsPath { cfg with machineName := m1 } ∧
    machineFile { cfg with machineName := m1 } f ≠
      certsFile { cfg with machineName := m1 } f := by
  have hwf := filepath.cleanBuf_wf cfg.outDir.data
  have hM : filepath.IsElement "machines".data := by decide
  have hC : filepath.IsElement "certs".data := by decide
  refine ⟨?_, ?_, ?_⟩
  · intro h
    have hd := congrArg String.data h
    rw [machinePath_data _ h1, machinePath_data _ h2] at hd
    have hb := filepath.render_injective _ _ _
      (filepath.push_wf _ _ _ (filepath.push_wf _ _ _ hwf hM) h1)
      (filepath.push_wf _ _ _ (filepath.push_wf _ _ _ hwf hM) h2) hd
    simp only [filepath.Buf.mk.injEq, List.cons.injEq, true_and, and_true] at hb
    exact hne (String.ext hb)
  · intro h
    have hd := congrArg String.data h
    rw [machinePath_data _ h1, certsPath_data] at hd
    have hb := filepath.render_injective _ _ _
      (filepath.push_wf _ _ _ (filepath.push_wf _ _ _ hwf hM) h1)
      (filepath.push_wf _ _ _ hwf hC) hd
    have hl := congrArg (fun b => b.elems.length) hb
    simp at hl
  · intro h
    have hd := congrArg String.data h
    rw [machineFile_data _ f h1 hf, certsFile_data _ f hf] at hd
    have hb := filepath.render_injective _ _ _
      (filepath.push_wf _ _ _
        (filepath.push_wf _ _ _ (filepath.push_wf _ _ _ hwf hM) h1) hf)
      (filepath.push_wf _ _ _ (filepath.push_wf _ _ _ hwf hC) hf) hd
    have hl := congrArg (fun b => b.elems.length) hb
    simp at hl

/-- Witness of C10 (amended): the machines `node1` and `node2` under `/out`,
and the file `ca.pem`. -/
theorem machine_trees_isolated_for_element_names_witness :
    (isPathElement "node1" ∧ isPathElement "node2" ∧ isPathElement "ca.pem") ∧
    machinePath { demoConfig with machineName := "node1" } ≠
      machinePath { demoConfig with machineName := "node2" } ∧
    machinePath { demoConfig with machineName := "node1" } ≠
      certsPath { demoConfig with machineName := "node1" } ∧
    machineFile { demoConfig with machineName := "node1" } "ca.pem" ≠
      certsFile { demoConfig with machineName := "node1" } "ca.pem" :=
  ⟨by decide,
   machine_trees_isolated_for_element_names demoConfig "node1" "node2" "ca.pem"
     (by decide) (by decide) (by decide) (by decide)⟩

end DockerMachineCerts
